import Mathlib

/-!
FT5x06 touch controller driver: query sizing and report decoding.

A shallow embedding of `src/ft5x06.c` / `src/ft5x06.h`.

* `unsigned char` values are `Byte = Fin 256`; they are promoted to a natural
  number (`.val`) before any arithmetic, as C promotes them to `int`.
* `int` expressions of `ft5x06_queryTouchInfo` are evaluated with `intExpr`,
  which has no value when the mathematical result does not fit an `int` of the
  given width (signed overflow).
* Array accesses go through `Option`-returning indexing; `none` is an access
  outside the array.
* The I²C driver (`i2cDriver.h`) is not part of the sources; it is modelled by
  `I2cDriver`, which records every call it receives and fixes what the next
  `i2c_getData` hands back.
-/

namespace FT5x06

/-! ## Constants and data model (ft5x06.h) -/

/-- An `unsigned char`. -/
abbrev Byte := Fin 256

/-- The macro `FT5X06_I2C_ADDR`, defined as 0x38: the I²C address of the FT5x06. -/
def FT5X06_I2C_ADDR : Nat := 0x38

/-- Enumerator of `enum ft5x06_touchEvent`: `FT5X06_EVENT_putDown = 0`. -/
def FT5X06_EVENT_putDown : Nat := 0
/-- Enumerator of `enum ft5x06_touchEvent`: `FT5X06_EVENT_putUp = 1`. -/
def FT5X06_EVENT_putUp : Nat := 1
/-- Enumerator of `enum ft5x06_touchEvent`: `FT5X06_EVENT_contact = 2`. -/
def FT5X06_EVENT_contact : Nat := 2
/-- Enumerator of `enum ft5x06_touchEvent`: `FT5X06_EVENT_invalid = 3`. -/
def FT5X06_EVENT_invalid : Nat := 3

/-- Enumerator of `enum ft5x06_retrieveTouchInfoRetVal`: `FT5X06_RETTOUCH_OK = 0`. -/
def FT5X06_RETTOUCH_OK : Int := 0
/-- Enumerator of `enum ft5x06_retrieveTouchInfoRetVal`: `FT5X06_RETTOUCH_ERR_I2C_ERROR = 1`. -/
def FT5X06_RETTOUCH_ERR_I2C_ERROR : Int := 1
/-- Enumerator of `enum ft5x06_retrieveTouchInfoRetVal`: `FT5X06_RETTOUCH_NULL_ARG = 2`. -/
def FT5X06_RETTOUCH_NULL_ARG : Int := 2
/-- Enumerator of `enum ft5x06_retrieveTouchInfoRetVal`: `FT5X06_RETTOUCH_ERR_NUM_POINTS = 3`. -/
def FT5X06_RETTOUCH_ERR_NUM_POINTS : Int := 3
/-- Enumerator of `enum ft5x06_retrieveTouchInfoRetVal`: `FT5X06_RETTOUCH_ERR_EVENT = 4`. -/
def FT5X06_RETTOUCH_ERR_EVENT : Int := 4

/-- The type `struct touchCoor`: `unsigned int x, y` and `enum ft5x06_touchEvent event`
(the enumeration is kept as its integer value, which is what the code compares). -/
structure touchCoor where
  x : Nat
  y : Nat
  event : Nat
deriving DecidableEq

/-- The type `struct touchInfo`: `unsigned char gesture, numPoints` and
`struct touchCoor points[5]` (a well-formed value has exactly five points). -/
structure touchInfo where
  gesture : Nat
  numPoints : Nat
  points : List touchCoor
deriving DecidableEq

/-! ## The I²C driver -/

/-- Modelled from the spec: the error enumeration of `i2cDriver.h`, which is not
among the sources. The code only names `I2C_ERR_noError`; every other value is a
transport failure whose detail is not interpreted. -/
inductive i2c_error where
  | I2C_ERR_noError
  | failure (detail : Nat)
deriving DecidableEq

/-- One call received by the I²C driver. -/
inductive I2cCall where
  /-- A call `i2c_gets(addr, reg, len)`: request `len` bytes from register `reg` of device `addr`. -/
  | gets (addr : Nat) (reg : Nat) (len : Int)
  /-- A call `i2c_getData(buffer, size)`: copy the received bytes into a caller buffer. -/
  | getData (size : Nat)
deriving DecidableEq

/-- Modelled from the spec: the transport collaborator behind `i2cDriver.h`.
`calls` is the trace of operations invoked so far (oldest first), `status` is
what `i2c_getData` returns and `rx` is the content of the caller's staging
buffer once `i2c_getData` has returned. -/
structure I2cDriver where
  calls : List I2cCall
  status : i2c_error
  rx : List Byte
deriving DecidableEq

/-- Modelled from the spec: `requestRead(deviceAddress, register, length)`. -/
def i2c_gets (drv : I2cDriver) (addr reg : Nat) (len : Int) : I2cDriver :=
  { drv with calls := drv.calls ++ [I2cCall.gets addr reg len] }

/-- Modelled from the spec: `fetchReceived(buffer, capacity)`; yields the driver
after the call, the returned status and the content of the caller's buffer. -/
def i2c_getData (drv : I2cDriver) (size : Nat) : I2cDriver × i2c_error × List Byte :=
  ({ drv with calls := drv.calls ++ [I2cCall.getData size] }, drv.status, drv.rx)

/-! ## ft5x06_queryTouchInfo -/

/-- The value of an `int` expression on a machine whose `int` has `w` bits:
`none` when the mathematical value is not representable. -/
def intExpr (w : Nat) (v : Int) : Option Int :=
  if -(2 : Int) ^ (w - 1) ≤ v ∧ v < (2 : Int) ^ (w - 1) then some v else none

/-- The length argument `2 + 4 * numPoints + 2 * ( numPoints - 1 )`, evaluated
operation by operation in `int` arithmetic. -/
def queryLength (w : Nat) (numPoints : Int) : Option Int := do
  let a ← intExpr w (4 * numPoints)
  let b ← intExpr w (2 + a)
  let c ← intExpr w (numPoints - 1)
  let d ← intExpr w (2 * c)
  intExpr w (b + d)

/-- The function `void ft5x06_queryTouchInfo( int numPoints )`. The result is the driver
after the call; `none` only when the length expression overflows `int`. -/
def ft5x06_queryTouchInfo (w : Nat) (drv : I2cDriver) (numPoints : Int) : Option I2cDriver :=
  if numPoints = 0 then
    some drv
  else do
    let len ← queryLength w numPoints
    some (i2c_gets drv FT5X06_I2C_ADDR 0x01 len)

/-! ## ft5x06_retrieveTouchInfo -/

/-- How one pass through the loop body ends. -/
inductive LoopStep where
  /-- The body reached its end or executed `continue`. -/
  | next (t : touchInfo)
  /-- The body executed `return code`. -/
  | ret (code : Int) (t : touchInfo)
deriving DecidableEq

/-- An assignment to a field of `touchInfo->points[ i ]`. -/
def touchInfo.modifyPoint (t : touchInfo) (i : Nat) (f : touchCoor → touchCoor) :
    Option touchInfo :=
  match t.points[i]? with
  | some p => some { t with points := t.points.set i (f p) }
  | none => none

/-- The body of `for ( i = 0; i < 5; ++i )` in `ft5x06_retrieveTouchInfo`. -/
def loopBody (buffer : List Byte) (i : Nat) (t : touchInfo) : Option LoopStep := do
  -- touchInfo->points[ i ].event = ( buffer[ 2 + i * 6 ] >> 6 ) & 0b11;
  let b ← buffer[2 + i * 6]?
  let t ← t.modifyPoint i (fun p => { p with event := (b.val >>> 6) &&& 0b11 })
  -- if ( touchInfo->points[ i ].event > 3 ) return FT5X06_RETTOUCH_ERR_EVENT;
  let p ← t.points[i]?
  if p.event > 3 then
    return LoopStep.ret FT5X06_RETTOUCH_ERR_EVENT t
  -- if ( i >= touchInfo->numPoints ) continue;
  if i ≥ t.numPoints then
    return LoopStep.next t
  -- touchInfo->points[ i ].x = ( buffer[ 2 + i * 6 ] & 0x0f ) << 8;
  let b ← buffer[2 + i * 6]?
  let t ← t.modifyPoint i (fun p => { p with x := (b.val &&& 0x0f) <<< 8 })
  -- touchInfo->points[ i ].x |= buffer[ 3 + i * 6 ];
  let b ← buffer[3 + i * 6]?
  let t ← t.modifyPoint i (fun p => { p with x := p.x ||| b.val })
  -- touchInfo->points[ i ].y = ( buffer[ 4 + i * 6 ] & 0x0f ) << 8;
  let b ← buffer[4 + i * 6]?
  let t ← t.modifyPoint i (fun p => { p with y := (b.val &&& 0x0f) <<< 8 })
  -- touchInfo->points[ i ].y |= buffer[ 5 + i * 6 ];
  let b ← buffer[5 + i * 6]?
  let t ← t.modifyPoint i (fun p => { p with y := p.y ||| b.val })
  return LoopStep.next t

/-- The loop `for ( i = 0; i < 5; ++i )`: `n` is the number of iterations still
to run (`5 - i`), `i` the loop variable. -/
def forLoop (buffer : List Byte) : Nat → Nat → touchInfo → Option LoopStep
  | 0, _, t => some (LoopStep.next t)
  | n + 1, i, t =>
    match loopBody buffer i t with
    | none => none
    | some (LoopStep.ret code t1) => some (LoopStep.ret code t1)
    | some (LoopStep.next t1) => forLoop buffer n (i + 1) t1

/-- What a call of `ft5x06_retrieveTouchInfo` leaves behind: the returned value,
the object behind the argument (`none` for a NULL argument) and the driver. -/
structure RetrieveResult where
  ret : Int
  touchInfo : Option touchInfo
  drv : I2cDriver
deriving DecidableEq

/-- The function `int ft5x06_retrieveTouchInfo( struct touchInfo *touchInfo )`. The argument
is `none` for a NULL pointer; the result is `none` only when an array is
accessed outside its bounds. -/
def ft5x06_retrieveTouchInfo (drv : I2cDriver) (touchInfo : Option touchInfo) :
    Option RetrieveResult :=
  match touchInfo with
  | none => some ⟨FT5X06_RETTOUCH_NULL_ARG, none, drv⟩
  | some t =>
    -- unsigned char buffer[ 30 ];
    -- if ( i2c_getData( buffer, sizeof( buffer ) ) != I2C_ERR_noError )
    match i2c_getData drv 30 with
    | (drv1, status, buffer) =>
      if status ≠ i2c_error.I2C_ERR_noError then
        some ⟨FT5X06_RETTOUCH_ERR_I2C_ERROR, some t, drv1⟩
      else do
        -- touchInfo->gesture = buffer[ 0 ];
        let b ← buffer[0]?
        let t := { t with gesture := b.val }
        -- touchInfo->numPoints = buffer[ 1 ];
        let b ← buffer[1]?
        let t := { t with numPoints := b.val }
        -- if ( touchInfo->numPoints > 5 ) return FT5X06_RETTOUCH_ERR_NUM_POINTS;
        if t.numPoints > 5 then
          some ⟨FT5X06_RETTOUCH_ERR_NUM_POINTS, some t, drv1⟩
        else
          match forLoop buffer 5 0 t with
          | none => none
          | some (LoopStep.ret code t1) => some ⟨code, some t1, drv1⟩
          -- return FT5X06_RETTOUCH_OK;
          | some (LoopStep.next t1) => some ⟨FT5X06_RETTOUCH_OK, some t1, drv1⟩

/-! ## Reading the wire table -/

/-- The byte at offset `k` of the staging buffer, as a number (0 past the end). -/
def byteAt (buffer : List Byte) (k : Nat) : Nat :=
  match buffer[k]? with
  | some b => b.val
  | none => 0

/-- Slot `i` after decoding, following the wire table: the event comes from the
top two bits of byte `2 + 6i`; the coordinates are taken from bytes
`2 + 6i .. 5 + 6i` when the slot is active (`i < n`) and kept from the previous
content `p` of the slot otherwise. -/
def decodePoint (buffer : List Byte) (n i : Nat) (p : touchCoor) : touchCoor :=
  if i < n then
    { x := ((byteAt buffer (2 + i * 6) &&& 0x0f) <<< 8) ||| byteAt buffer (3 + i * 6),
      y := ((byteAt buffer (4 + i * 6) &&& 0x0f) <<< 8) ||| byteAt buffer (5 + i * 6),
      event := (byteAt buffer (2 + i * 6) >>> 6) &&& 0b11 }
  else
    { p with event := (byteAt buffer (2 + i * 6) >>> 6) &&& 0b11 }

/-- The report described by the wire table for a staging buffer, decoded over the
previous content `t` of the target. -/
def decodeReport (buffer : List Byte) (t : touchInfo) : touchInfo :=
  { gesture := byteAt buffer 0,
    numPoints := byteAt buffer 1,
    points := t.points.mapIdx (fun i p => decodePoint buffer (byteAt buffer 1) i p) }

/-- The driver once `i2c_getData( buffer, 30 )` has been served. -/
def afterFetch (drv : I2cDriver) : I2cDriver :=
  { drv with calls := drv.calls ++ [I2cCall.getData 30] }

/-! ## Sample data -/

/-- A target whose fields all hold recognisable stale values. -/
def staleTarget : touchInfo :=
  { gesture := 0x49, numPoints := 4,
    points := [⟨11, 12, 2⟩, ⟨21, 22, 2⟩, ⟨31, 32, 0⟩, ⟨41, 42, 2⟩, ⟨51, 52, 1⟩] }

/-- Two active points: put down at (100, 200) and contact at (300, 400); the
three other slots report put up with all-ones coordinates. -/
def twoPointBuffer : List Byte :=
  [0x00, 2,
   0x00, 100, 0x00, 200, 0, 0,
   0x81, 0x2c, 0x01, 0x90, 0, 0,
   0x7f, 0xff, 0xff, 0xff, 0, 0,
   0x7f, 0xff, 0xff, 0xff, 0, 0,
   0x7f, 0xff, 0xff, 0xff]

/-- Three active points; slot 0 has X bytes `[0x01, 0x23]`, slot 1 has base byte
`0b11000101`, slot 2 has base byte `0b00000101`; the gesture byte `0xab` is not
an enumerated gesture. -/
def threePointBuffer : List Byte :=
  [0xab, 3,
   0x01, 0x23, 0x02, 0x34, 0, 0,
   0b11000101, 0x10, 0xf3, 0x20, 0, 0,
   0b00000101, 0x30, 0x00, 0x40, 0, 0,
   0x7f, 0xff, 0xff, 0xff, 0, 0,
   0xbf, 0xff, 0xff, 0xff]

/-- The buffer `threePointBuffer` with the upper four bits of the X-high and
Y-high bytes of slot 0 changed. -/
def threePointBufferHigh : List Byte :=
  [0xab, 3,
   0x31, 0x23, 0xf2, 0x34, 0, 0,
   0b11000101, 0x10, 0xf3, 0x20, 0, 0,
   0b00000101, 0x30, 0x00, 0x40, 0, 0,
   0x7f, 0xff, 0xff, 0xff, 0, 0,
   0xbf, 0xff, 0xff, 0xff]

/-- A buffer whose point count byte is 6. -/
def sixPointBuffer : List Byte :=
  [0x10, 6,
   0x00, 100, 0x00, 200, 0, 0,
   0x81, 0x2c, 0x01, 0x90, 0, 0,
   0x7f, 0xff, 0xff, 0xff, 0, 0,
   0x7f, 0xff, 0xff, 0xff, 0, 0,
   0x7f, 0xff, 0xff, 0xff]

/-- An idle driver whose next fetch succeeds with the given staging content. -/
def okDriver (rx : List Byte) : I2cDriver :=
  { calls := [], status := i2c_error.I2C_ERR_noError, rx := rx }

/-- An idle driver whose next fetch fails, with the given staging content. -/
def failingDriver (rx : List Byte) : I2cDriver :=
  { calls := [], status := i2c_error.failure 1, rx := rx }

/-- The two points of the end-to-end example: put down at (100, 200) and contact
at (300, 400). -/
def twoPoints : List touchCoor :=
  [⟨100, 200, FT5X06_EVENT_putDown⟩, ⟨300, 400, FT5X06_EVENT_contact⟩]

/-- The buffer `twoPointBuffer` with the event bits of the inactive slot 2
(byte 14, beyond the first 12 bytes) changed from put up to contact. -/
def twoPointBufferTail : List Byte :=
  [0x00, 2,
   0x00, 100, 0x00, 200, 0, 0,
   0x81, 0x2c, 0x01, 0x90, 0, 0,
   0xbf, 0xff, 0xff, 0xff, 0, 0,
   0x7f, 0xff, 0xff, 0xff, 0, 0,
   0x7f, 0xff, 0xff, 0xff]

/-- The buffer `twoPointBuffer` with every bit beyond the first 12 bytes changed
except the event bits (the top two bits of bytes 14, 20 and 26). -/
def twoPointBufferJunk : List Byte :=
  [0x00, 2,
   0x00, 100, 0x00, 200, 0, 0,
   0x81, 0x2c, 0x01, 0x90,
   0xff, 0xff, 0x40, 0x00, 0x00, 0x00,
   0xff, 0xff, 0x40, 0x00, 0x00, 0x00,
   0xff, 0xff, 0x40, 0x00, 0x00, 0x00]

/-- The two-point example padded with zero bytes up to the staging capacity: the
three inactive slots then carry event code 0 (put down). -/
def twoPointBufferZeroPad : List Byte :=
  [0x00, 2,
   0x00, 100, 0x00, 200, 0, 0,
   0x81, 0x2c, 0x01, 0x90, 0, 0,
   0, 0, 0, 0, 0, 0,
   0, 0, 0, 0, 0, 0,
   0, 0, 0, 0]

/-- The number of active points of a report in the spec's sense: the slots whose
event is not put up. -/
def activeSlots (t : touchInfo) : Nat :=
  t.points.countP (fun p => decide (p.event ≠ FT5X06_EVENT_putUp))

/-- The number of slots `i` in 0..4 whose base byte `2 + 6i` carries an event
code other than put up. -/
def wireActiveSlots (buffer : List Byte) : Nat :=
  (List.range 5).countP
    (fun i => decide ((byteAt buffer (2 + i * 6) >>> 6) &&& 0b11 ≠ FT5X06_EVENT_putUp))

/-! ## Lemmas on the query -/

theorem intExpr_eq_some {w : Nat} {v : Int}
    (hlo : -(2 : Int) ^ (w - 1) ≤ v) (hhi : v < (2 : Int) ^ (w - 1)) :
    intExpr w v = some v := by
  unfold intExpr
  rw [if_pos ⟨hlo, hhi⟩]

theorem queryLength_eq_some {w : Nat} {n : Int} (hn : n ≠ 0)
    (hlo : -(2 : Int) ^ (w - 1) ≤ 2 + 4 * n + 2 * (n - 1))
    (hhi : 2 + 4 * n + 2 * (n - 1) < (2 : Int) ^ (w - 1)) :
    queryLength w n = some (2 + 4 * n + 2 * (n - 1)) := by
  have hP : (0 : Int) < (2 : Int) ^ (w - 1) := by positivity
  have e1 : intExpr w (4 * n) = some (4 * n) :=
    intExpr_eq_some (by omega) (by omega)
  have e2 : intExpr w (2 + 4 * n) = some (2 + 4 * n) :=
    intExpr_eq_some (by omega) (by omega)
  have e3 : intExpr w (n - 1) = some (n - 1) :=
    intExpr_eq_some (by omega) (by omega)
  have e4 : intExpr w (2 * (n - 1)) = some (2 * (n - 1)) :=
    intExpr_eq_some (by omega) (by omega)
  have e5 : intExpr w (2 + 4 * n + 2 * (n - 1)) = some (2 + 4 * n + 2 * (n - 1)) :=
    intExpr_eq_some hlo hhi
  simp only [queryLength, e1, e2, e3, e4, e5, Option.bind_eq_bind, Option.some_bind]

theorem int_pow_ge_of_width {w : Nat} (hw : 16 ≤ w) : (32768 : Int) ≤ (2 : Int) ^ (w - 1) := by
  have h : (2 : Int) ^ 15 ≤ (2 : Int) ^ (w - 1) :=
    pow_le_pow_right₀ (by norm_num) (by omega)
  norm_num at h
  exact h

/-! ## Lemmas on the decoder -/

theorem exists_byte (buffer : List Byte) {k : Nat} (h : k < buffer.length) :
    ∃ b, buffer[k]? = some b ∧ byteAt buffer k = b.val := by
  refine ⟨buffer[k], ?_, ?_⟩
  · exact List.getElem?_eq_getElem h
  · simp [byteAt, List.getElem?_eq_getElem h]

theorem byteAt_lt (buffer : List Byte) (k : Nat) : byteAt buffer k < 256 := by
  unfold byteAt
  cases buffer[k]? with
  | none => decide
  | some b => exact b.isLt

theorem byteAt_of_getElem? {buffer : List Byte} {k : Nat} {b : Byte}
    (h : buffer[k]? = some b) : byteAt buffer k = b.val := by
  simp [byteAt, h]

theorem loopBody_eq {buffer : List Byte} {i : Nat} {t : touchInfo} {p : touchCoor}
    (hb : 5 + i * 6 < buffer.length) (hp : t.points[i]? = some p) :
    loopBody buffer i t =
      some (LoopStep.next
        { t with points := t.points.set i (decodePoint buffer t.numPoints i p) }) := by
  obtain ⟨b2, hb2, e2⟩ := exists_byte buffer (k := 2 + i * 6) (by omega)
  obtain ⟨b3, hb3, e3⟩ := exists_byte buffer (k := 3 + i * 6) (by omega)
  obtain ⟨b4, hb4, e4⟩ := exists_byte buffer (k := 4 + i * 6) (by omega)
  obtain ⟨b5, hb5, e5⟩ := exists_byte buffer (k := 5 + i * 6) (by omega)
  have hi : i < t.points.length := by
    rcases Nat.lt_or_ge i t.points.length with h | h
    · exact h
    · rw [List.getElem?_eq_none h] at hp; cases hp
  have hev : ¬ ((b2.val >>> 6) &&& 3 > 3) := by
    have := @Nat.and_le_right (b2.val >>> 6) 3
    omega
  unfold loopBody decodePoint
  rw [e2, e3, e4, e5]
  by_cases hn : i < t.numPoints
  · have hn' : ¬ (i ≥ t.numPoints) := by omega
    simp [touchInfo.modifyPoint, hb2, hb3, hb4, hb5, hp, hi, hev, hn, hn']
  · have hn' : i ≥ t.numPoints := by omega
    simp [touchInfo.modifyPoint, hb2, hb3, hb4, hb5, hp, hi, hev, hn, hn']

theorem forLoop_eq (buffer : List Byte) {t : touchInfo}
    (hb : buffer.length = 30) (hp : t.points.length = 5) :
    forLoop buffer 5 0 t =
      some (LoopStep.next
        { t with points := t.points.mapIdx (fun i p => decodePoint buffer t.numPoints i p) }) := by
  obtain ⟨g, n, pts⟩ := t
  match pts, hp with
  | [p0, p1, p2, p3, p4], _ =>
    simp only [forLoop]
    rw [loopBody_eq (p := p0) (by omega) (by simp)]
    simp only [List.set_cons_zero, Nat.zero_add]
    rw [loopBody_eq (p := p1) (by omega) (by simp)]
    simp only [List.set_cons_zero, List.set_cons_succ, Nat.reduceAdd]
    rw [loopBody_eq (p := p2) (by omega) (by simp)]
    simp only [List.set_cons_zero, List.set_cons_succ, Nat.reduceAdd]
    rw [loopBody_eq (p := p3) (by omega) (by simp)]
    simp only [List.set_cons_zero, List.set_cons_succ, Nat.reduceAdd]
    rw [loopBody_eq (p := p4) (by omega) (by simp)]
    simp [List.mapIdx_cons]

theorem retrieve_null (drv : I2cDriver) :
    ft5x06_retrieveTouchInfo drv none = some ⟨FT5X06_RETTOUCH_NULL_ARG, none, drv⟩ := rfl

theorem retrieve_fetch_failed {drv : I2cDriver} (t : touchInfo)
    (hs : drv.status ≠ i2c_error.I2C_ERR_noError) :
    ft5x06_retrieveTouchInfo drv (some t) =
      some ⟨FT5X06_RETTOUCH_ERR_I2C_ERROR, some t, afterFetch drv⟩ := by
  simp [ft5x06_retrieveTouchInfo, i2c_getData, hs, afterFetch]

theorem retrieve_bad_count {drv : I2cDriver} (t : touchInfo)
    (hs : drv.status = i2c_error.I2C_ERR_noError) (hb : drv.rx.length = 30)
    (hn : 5 < byteAt drv.rx 1) :
    ft5x06_retrieveTouchInfo drv (some t) =
      some ⟨FT5X06_RETTOUCH_ERR_NUM_POINTS,
        some { t with gesture := byteAt drv.rx 0, numPoints := byteAt drv.rx 1 },
        afterFetch drv⟩ := by
  obtain ⟨b0, hb0, e0⟩ := exists_byte drv.rx (k := 0) (by omega)
  obtain ⟨b1, hb1, e1⟩ := exists_byte drv.rx (k := 1) (by omega)
  rw [e1] at hn
  simp [ft5x06_retrieveTouchInfo, i2c_getData, hs, afterFetch, hb0, hb1, e0, e1, hn]

theorem retrieve_ok {drv : I2cDriver} {t : touchInfo}
    (hs : drv.status = i2c_error.I2C_ERR_noError) (hb : drv.rx.length = 30)
    (hp : t.points.length = 5) (hn : byteAt drv.rx 1 ≤ 5) :
    ft5x06_retrieveTouchInfo drv (some t) =
      some ⟨FT5X06_RETTOUCH_OK, some (decodeReport drv.rx t), afterFetch drv⟩ := by
  obtain ⟨b0, hb0, e0⟩ := exists_byte drv.rx (k := 0) (by omega)
  obtain ⟨b1, hb1, e1⟩ := exists_byte drv.rx (k := 1) (by omega)
  have hn' : ¬ (5 < b1.val) := by rw [e1] at hn; omega
  have hl := forLoop_eq drv.rx
    (t := { t with gesture := b0.val, numPoints := b1.val }) hb hp
  simp [ft5x06_retrieveTouchInfo, i2c_getData, hs, afterFetch, hb0, hb1, e0, e1, hn', hl,
    decodeReport]

theorem decodeReport_point (buffer : List Byte) {t : touchInfo} {i : Nat}
    (hp : t.points.length = 5) (hi : i < 5) :
    ∃ q, t.points[i]? = some q ∧
      (decodeReport buffer t).points[i]? = some (decodePoint buffer (byteAt buffer 1) i q) := by
  refine ⟨t.points[i], List.getElem?_eq_getElem (by omega), ?_⟩
  simp [decodeReport, List.getElem?_eq_getElem (show i < t.points.length by omega)]

theorem coordinate_le (a b : Nat) (hb : b < 256) : ((a &&& 0x0f) <<< 8) ||| b ≤ 4095 := by
  have h1 : a &&& 0x0f ≤ 0x0f := Nat.and_le_right
  have h2 : (a &&& 0x0f) <<< 8 < 2 ^ 12 := by
    rw [Nat.shiftLeft_eq]; omega
  have h3 : b < 2 ^ 12 := by omega
  have := Nat.or_lt_two_pow h2 h3
  omega

theorem and_0x0f_eq_mod (a : Nat) : a &&& 0x0f = a % 16 :=
  Nat.and_pow_two_sub_one_eq_mod a 4

theorem event_code_le (a : Nat) : (a >>> 6) &&& 0b11 ≤ 3 := Nat.and_le_right

/-! ## Claims -/

/-- C1: for every `numPoints` in 1..5 (and any `int` of at least 16 bits),
`ft5x06_queryTouchInfo` adds exactly one call to the driver's trace: a read
request to device 0x38, register 0x01, of length
`2 + 4*numPoints + 2*(numPoints-1)`, which is `6*numPoints` (12 for 2 points). -/
theorem query_issues_one_request (w : Nat) (hw : 16 ≤ w) (drv : I2cDriver) (numPoints : Int)
    (h1 : 1 ≤ numPoints) (h5 : numPoints ≤ 5) :
    ft5x06_queryTouchInfo w drv numPoints =
        some { drv with
          calls := drv.calls ++ [I2cCall.gets 0x38 0x01 (2 + 4 * numPoints + 2 * (numPoints - 1))] }
      ∧ 2 + 4 * numPoints + 2 * (numPoints - 1) = 6 * numPoints
      ∧ (numPoints = 2 → 2 + 4 * numPoints + 2 * (numPoints - 1) = 12) := by
  have hP := int_pow_ge_of_width hw
  have hn : numPoints ≠ 0 := by omega
  have hq := queryLength_eq_some (w := w) hn (by omega) (by omega)
  refine ⟨?_, by ring, fun h => by omega⟩
  simp [ft5x06_queryTouchInfo, hn, hq, i2c_gets, FT5X06_I2C_ADDR]

/-- Witness for C1: two points on a 16-bit `int` request 12 bytes. -/
theorem query_issues_one_request_witness :
    ft5x06_queryTouchInfo 16 ⟨[], i2c_error.I2C_ERR_noError, []⟩ 2 =
      some ⟨[I2cCall.gets 0x38 0x01 12], i2c_error.I2C_ERR_noError, []⟩ :=
  (query_issues_one_request 16 (by decide) ⟨[], i2c_error.I2C_ERR_noError, []⟩ 2
    (by decide) (by decide)).1

/-- C2: `ft5x06_queryTouchInfo` leaves the driver untouched (no request) when
`numPoints` is 0; for every other `numPoints`, positive or negative, above 5 or
not, whose length expression fits an `int`, it adds exactly one read request of
length `2 + 4*numPoints + 2*(numPoints-1)` to the trace. In both cases the call
completes; it has no result other than the driver's new state. -/
theorem query_zero_or_one_request (w : Nat) (drv : I2cDriver) (numPoints : Int) :
    (numPoints = 0 → ft5x06_queryTouchInfo w drv numPoints = some drv)
    ∧ (numPoints ≠ 0 →
        -(2 : Int) ^ (w - 1) ≤ 2 + 4 * numPoints + 2 * (numPoints - 1) →
        2 + 4 * numPoints + 2 * (numPoints - 1) < (2 : Int) ^ (w - 1) →
        ft5x06_queryTouchInfo w drv numPoints =
          some { drv with
            calls := drv.calls ++
              [I2cCall.gets FT5X06_I2C_ADDR 0x01 (2 + 4 * numPoints + 2 * (numPoints - 1))] }) := by
  refine ⟨fun h => ?_, fun hn hlo hhi => ?_⟩
  · simp [ft5x06_queryTouchInfo, h]
  · have hq := queryLength_eq_some hn hlo hhi
    simp [ft5x06_queryTouchInfo, hn, hq, i2c_gets]

/-- Witness for C2: 7 points (above the device maximum) request 42 bytes and
-3 points request a length of -18, each with one call. -/
theorem query_zero_or_one_request_witness :
    ft5x06_queryTouchInfo 16 ⟨[], i2c_error.I2C_ERR_noError, []⟩ 0 =
        some ⟨[], i2c_error.I2C_ERR_noError, []⟩
    ∧ ft5x06_queryTouchInfo 16 ⟨[], i2c_error.I2C_ERR_noError, []⟩ 7 =
        some ⟨[I2cCall.gets 0x38 0x01 42], i2c_error.I2C_ERR_noError, []⟩
    ∧ ft5x06_queryTouchInfo 16 ⟨[], i2c_error.I2C_ERR_noError, []⟩ (-3) =
        some ⟨[I2cCall.gets 0x38 0x01 (-18)], i2c_error.I2C_ERR_noError, []⟩ :=
  ⟨(query_zero_or_one_request 16 ⟨[], i2c_error.I2C_ERR_noError, []⟩ 0).1 rfl,
   (query_zero_or_one_request 16 ⟨[], i2c_error.I2C_ERR_noError, []⟩ 7).2
      (by decide) (by decide) (by decide),
   (query_zero_or_one_request 16 ⟨[], i2c_error.I2C_ERR_noError, []⟩ (-3)).2
      (by decide) (by decide) (by decide)⟩

/-- C3: after a successful fetch of a 30-byte buffer whose byte 1 is at most 5,
decoding into a target returns OK and every slot `i < numPoints` holds
`x = ((buffer[2+6i] & 0x0f) << 8) | buffer[3+6i]` and
`y = ((buffer[4+6i] & 0x0f) << 8) | buffer[5+6i]`. Both are at most 4095, and
they do not depend on the upper four bits of bytes `2+6i` and `4+6i`: any other
successful decode whose buffer has the same low four bits in those two bytes and
the same bytes `3+6i` and `5+6i` yields the same `x` and `y` in slot `i`.
Bytes `[0x01, 0x23]` at the X position give `x = 291`. -/
theorem retrieve_coordinates (drv : I2cDriver) (t : touchInfo)
    (hs : drv.status = i2c_error.I2C_ERR_noError) (hb : drv.rx.length = 30)
    (hp : t.points.length = 5) (hn : byteAt drv.rx 1 ≤ 5) :
    ∃ r t1, ft5x06_retrieveTouchInfo drv (some t) = some r ∧
      r.ret = FT5X06_RETTOUCH_OK ∧ r.touchInfo = some t1 ∧
      t1.numPoints = byteAt drv.rx 1 ∧
      ∀ i, i < t1.numPoints → ∃ p, t1.points[i]? = some p ∧
        p.x = ((byteAt drv.rx (2 + 6 * i) &&& 0x0f) <<< 8) ||| byteAt drv.rx (3 + 6 * i) ∧
        p.y = ((byteAt drv.rx (4 + 6 * i) &&& 0x0f) <<< 8) ||| byteAt drv.rx (5 + 6 * i) ∧
        p.x ≤ 4095 ∧ p.y ≤ 4095 ∧
        (byteAt drv.rx (2 + 6 * i) = 0x01 → byteAt drv.rx (3 + 6 * i) = 0x23 → p.x = 291) ∧
        ∀ (drv2 : I2cDriver) (t2 : touchInfo),
          drv2.status = i2c_error.I2C_ERR_noError → drv2.rx.length = 30 →
          t2.points.length = 5 → byteAt drv2.rx 1 ≤ 5 → i < byteAt drv2.rx 1 →
          byteAt drv2.rx (2 + 6 * i) % 16 = byteAt drv.rx (2 + 6 * i) % 16 →
          byteAt drv2.rx (3 + 6 * i) = byteAt drv.rx (3 + 6 * i) →
          byteAt drv2.rx (4 + 6 * i) % 16 = byteAt drv.rx (4 + 6 * i) % 16 →
          byteAt drv2.rx (5 + 6 * i) = byteAt drv.rx (5 + 6 * i) →
          ∃ r2 t3 p2, ft5x06_retrieveTouchInfo drv2 (some t2) = some r2 ∧
            r2.touchInfo = some t3 ∧ t3.points[i]? = some p2 ∧ p2.x = p.x ∧ p2.y = p.y := by
  refine ⟨_, _, retrieve_ok hs hb hp hn, rfl, rfl, rfl, ?_⟩
  intro i hi
  have hi' : i < byteAt drv.rx 1 := hi
  obtain ⟨q, _, hq⟩ := decodeReport_point drv.rx hp (show i < 5 by omega)
  refine ⟨_, hq, ?_, ?_, ?_, ?_, ?_, ?_⟩
  · simp [decodePoint, hi', Nat.mul_comm 6 i]
  · simp [decodePoint, hi', Nat.mul_comm 6 i]
  · simp only [decodePoint, hi', if_true]
    exact coordinate_le _ _ (byteAt_lt _ _)
  · simp only [decodePoint, hi', if_true]
    exact coordinate_le _ _ (byteAt_lt _ _)
  · intro h2 h3
    simp only [decodePoint, hi', if_true]
    rw [Nat.mul_comm 6 i] at h2 h3
    rw [h2, h3]
    decide
  · intro drv2 t2 hs2 hb2 hp2 hn2 hi2 e2 e3 e4 e5
    obtain ⟨q2, _, hq2⟩ := decodeReport_point drv2.rx hp2 (show i < 5 by omega)
    refine ⟨_, _, _, retrieve_ok hs2 hb2 hp2 hn2, rfl, hq2, ?_, ?_⟩
    · rw [Nat.mul_comm 6 i] at e2 e3
      simp only [decodePoint, hi', hi2, if_true, and_0x0f_eq_mod, e2, e3]
    · rw [Nat.mul_comm 6 i] at e4 e5
      simp only [decodePoint, hi', hi2, if_true, and_0x0f_eq_mod, e4, e5]

/-- Witness for C3: slot 0 of `threePointBuffer` has X bytes `[0x01, 0x23]` and
Y bytes `[0x02, 0x34]`; the decode returns OK with `x = 291`, `y = 564`, and the
buffer with other upper bits in the two high bytes gives the same slot. -/
theorem retrieve_coordinates_witness :
    ∃ r t1 p, ft5x06_retrieveTouchInfo (okDriver threePointBuffer) (some staleTarget) = some r ∧
      r.ret = FT5X06_RETTOUCH_OK ∧ r.touchInfo = some t1 ∧
      t1.points[0]? = some p ∧ p.x = 291 ∧ p.y = 564 ∧
      ∃ r2 t3 p2,
        ft5x06_retrieveTouchInfo (okDriver threePointBufferHigh) (some staleTarget) = some r2 ∧
        r2.touchInfo = some t3 ∧ t3.points[0]? = some p2 ∧ p2.x = p.x ∧ p2.y = p.y := by
  obtain ⟨r, t1, h1, h2, h3, h4, h5⟩ :=
    retrieve_coordinates (okDriver threePointBuffer) staleTarget rfl rfl rfl (by decide)
  obtain ⟨p, hp, hx, hy, _, _, _, hind⟩ := h5 0 (by rw [h4]; decide)
  exact ⟨r, t1, p, h1, h2, h3, hp, by rw [hx]; decide, by rw [hy]; decide,
    hind (okDriver threePointBufferHigh) staleTarget rfl rfl rfl (by decide) (by decide)
      (by decide) (by decide) (by decide) (by decide)⟩

/-- C4: after a successful fetch of a 30-byte buffer whose byte 1 is at most 5,
the event of every one of the five slots `i` in 0..4, whatever `numPoints` is,
equals `(buffer[2+6i] >> 6) & 0b11`; code 0 is putDown, 1 is putUp, 2 is
contact and 3 is invalid. A base byte `0b11000101` gives event 3 and
`0b00000101` gives event 0 (putDown). -/
theorem retrieve_events (drv : I2cDriver) (t : touchInfo)
    (hs : drv.status = i2c_error.I2C_ERR_noError) (hb : drv.rx.length = 30)
    (hp : t.points.length = 5) (hn : byteAt drv.rx 1 ≤ 5) :
    ∃ r t1, ft5x06_retrieveTouchInfo drv (some t) = some r ∧ r.touchInfo = some t1 ∧
      ∀ i, i < 5 → ∃ p, t1.points[i]? = some p ∧
        p.event = (byteAt drv.rx (2 + 6 * i) >>> 6) &&& 0b11 ∧
        (p.event = FT5X06_EVENT_putDown ∨ p.event = FT5X06_EVENT_putUp ∨
          p.event = FT5X06_EVENT_contact ∨ p.event = FT5X06_EVENT_invalid) ∧
        ((byteAt drv.rx (2 + 6 * i) >>> 6) &&& 0b11 = 0 → p.event = FT5X06_EVENT_putDown) ∧
        ((byteAt drv.rx (2 + 6 * i) >>> 6) &&& 0b11 = 1 → p.event = FT5X06_EVENT_putUp) ∧
        ((byteAt drv.rx (2 + 6 * i) >>> 6) &&& 0b11 = 2 → p.event = FT5X06_EVENT_contact) ∧
        ((byteAt drv.rx (2 + 6 * i) >>> 6) &&& 0b11 = 3 → p.event = FT5X06_EVENT_invalid) ∧
        (byteAt drv.rx (2 + 6 * i) = 0b11000101 → p.event = 3) ∧
        (byteAt drv.rx (2 + 6 * i) = 0b00000101 → p.event = FT5X06_EVENT_putDown) := by
  refine ⟨_, _, retrieve_ok hs hb hp hn, rfl, ?_⟩
  intro i hi
  obtain ⟨q, _, hq⟩ := decodeReport_point drv.rx hp hi
  have hev : (decodePoint drv.rx (byteAt drv.rx 1) i q).event
      = (byteAt drv.rx (2 + 6 * i) >>> 6) &&& 0b11 := by
    unfold decodePoint
    rw [Nat.mul_comm 6 i]
    split <;> rfl
  have hle := event_code_le (byteAt drv.rx (2 + 6 * i))
  refine ⟨_, hq, hev, ?_, ?_, ?_, ?_, ?_, ?_, ?_⟩
  · rw [hev]
    simp only [FT5X06_EVENT_putDown, FT5X06_EVENT_putUp, FT5X06_EVENT_contact,
      FT5X06_EVENT_invalid]
    omega
  · intro h; rw [hev, h]; rfl
  · intro h; rw [hev, h]; rfl
  · intro h; rw [hev, h]; rfl
  · intro h; rw [hev, h]; rfl
  · intro h; rw [hev, h]; decide
  · intro h; rw [hev, h]; decide

/-- Witness for C4: in `threePointBuffer` (three active points) slot 1 has base
byte `0b11000101` and decodes to event 3, slot 2 has `0b00000101` and decodes to
putDown, and the inactive slot 4 has base byte `0xbf` and decodes to contact. -/
theorem retrieve_events_witness :
    ∃ r t1 p1 p2 p4,
      ft5x06_retrieveTouchInfo (okDriver threePointBuffer) (some staleTarget) = some r ∧
      r.touchInfo = some t1 ∧
      t1.points[1]? = some p1 ∧ p1.event = 3 ∧
      t1.points[2]? = some p2 ∧ p2.event = FT5X06_EVENT_putDown ∧
      t1.points[4]? = some p4 ∧ p4.event = FT5X06_EVENT_contact := by
  obtain ⟨r, t1, h1, h2, h3⟩ :=
    retrieve_events (okDriver threePointBuffer) staleTarget rfl rfl rfl (by decide)
  obtain ⟨p1, hp1, _, _, _, _, _, _, e1, _⟩ := h3 1 (by decide)
  obtain ⟨p2, hp2, _, _, _, _, _, _, _, e2⟩ := h3 2 (by decide)
  obtain ⟨p4, hp4, _, _, _, _, e4, _⟩ := h3 4 (by decide)
  exact ⟨r, t1, p1, p2, p4, h1, h2, hp1, e1 (by decide), hp2, e2 (by decide), hp4,
    e4 (by decide)⟩

/-- C5: with a non-null target and a successful fetch of a 30-byte buffer,
`ft5x06_retrieveTouchInfo` returns `FT5X06_RETTOUCH_ERR_NUM_POINTS` exactly when
buffer byte 1 is greater than 5 and `FT5X06_RETTOUCH_OK` exactly when it is at
most 5; on OK the report's `numPoints` equals byte 1 and is at most 5. -/
theorem retrieve_point_count (drv : I2cDriver) (t : touchInfo)
    (hs : drv.status = i2c_error.I2C_ERR_noError) (hb : drv.rx.length = 30)
    (hp : t.points.length = 5) :
    ∃ r, ft5x06_retrieveTouchInfo drv (some t) = some r ∧
      (r.ret = FT5X06_RETTOUCH_ERR_NUM_POINTS ↔ 5 < byteAt drv.rx 1) ∧
      (r.ret = FT5X06_RETTOUCH_OK ↔ byteAt drv.rx 1 ≤ 5) ∧
      (r.ret = FT5X06_RETTOUCH_OK →
        ∃ t1, r.touchInfo = some t1 ∧ t1.numPoints = byteAt drv.rx 1 ∧ t1.numPoints ≤ 5) := by
  by_cases hn : byteAt drv.rx 1 ≤ 5
  · refine ⟨_, retrieve_ok hs hb hp hn, ?_, ?_, ?_⟩
    · simp only [FT5X06_RETTOUCH_OK, FT5X06_RETTOUCH_ERR_NUM_POINTS]
      constructor
      · intro h; exact absurd h (by decide)
      · intro h; omega
    · exact ⟨fun _ => hn, fun _ => rfl⟩
    · intro _
      exact ⟨_, rfl, rfl, hn⟩
  · have hn' : 5 < byteAt drv.rx 1 := by omega
    refine ⟨_, retrieve_bad_count t hs hb hn', ?_, ?_, ?_⟩
    · exact ⟨fun _ => hn', fun _ => rfl⟩
    · simp only [FT5X06_RETTOUCH_OK, FT5X06_RETTOUCH_ERR_NUM_POINTS]
      constructor
      · intro h; exact absurd h (by decide)
      · intro h; omega
    · simp only [FT5X06_RETTOUCH_OK, FT5X06_RETTOUCH_ERR_NUM_POINTS]
      intro h; exact absurd h (by decide)

/-- Witness for C5: a count byte of 6 gives `FT5X06_RETTOUCH_ERR_NUM_POINTS`, a
count byte of 2 gives `FT5X06_RETTOUCH_OK` with `numPoints = 2`. -/
theorem retrieve_point_count_witness :
    (∃ r, ft5x06_retrieveTouchInfo (okDriver sixPointBuffer) (some staleTarget) = some r ∧
      r.ret = FT5X06_RETTOUCH_ERR_NUM_POINTS) ∧
    (∃ r t1, ft5x06_retrieveTouchInfo (okDriver twoPointBuffer) (some staleTarget) = some r ∧
      r.ret = FT5X06_RETTOUCH_OK ∧ r.touchInfo = some t1 ∧ t1.numPoints = 2) := by
  obtain ⟨r, h1, h2, _, _⟩ :=
    retrieve_point_count (okDriver sixPointBuffer) staleTarget rfl rfl rfl
  obtain ⟨r2, k1, _, k3, k4⟩ :=
    retrieve_point_count (okDriver twoPointBuffer) staleTarget rfl rfl rfl
  have hok := k3.2 (by decide)
  obtain ⟨t1, e1, e2, _⟩ := k4 hok
  exact ⟨⟨r, h1, h2.2 (by decide)⟩, ⟨r2, t1, k1, hok, e1, by rw [e2]; decide⟩⟩

/-- Counterexample for C6 as stated: decoding `sixPointBuffer` (count byte 6,
gesture byte 0x10) into `staleTarget` (gesture 0x49, numPoints 4) fails with
`FT5X06_RETTOUCH_ERR_NUM_POINTS`, yet the target's `gesture` and `numPoints` no
longer hold their previous values: they are 0x10 and 6. -/
theorem retrieve_bad_count_changes_header :
    ∃ r t1, ft5x06_retrieveTouchInfo (okDriver sixPointBuffer) (some staleTarget) = some r ∧
      r.ret = FT5X06_RETTOUCH_ERR_NUM_POINTS ∧ r.touchInfo = some t1 ∧
      t1.gesture = 0x10 ∧ t1.gesture ≠ staleTarget.gesture ∧
      t1.numPoints = 6 ∧ t1.numPoints ≠ staleTarget.numPoints ∧
      t1 ≠ staleTarget :=
  ⟨_, _, rfl, rfl, rfl, by decide, by decide, by decide, by decide, by decide⟩

/-- C6 (amended): decoding a 30-byte buffer whose point-count byte is greater
than 5 fails with `FT5X06_RETTOUCH_ERR_NUM_POINTS`; the target's `gesture` and
`numPoints` have been overwritten with buffer bytes 0 and 1, and every point
slot holds the same values after the call as before it. -/
theorem retrieve_bad_count_keeps_points (drv : I2cDriver) (t : touchInfo)
    (hs : drv.status = i2c_error.I2C_ERR_noError) (hb : drv.rx.length = 30)
    (hn : 5 < byteAt drv.rx 1) :
    ∃ r t1, ft5x06_retrieveTouchInfo drv (some t) = some r ∧
      r.ret = FT5X06_RETTOUCH_ERR_NUM_POINTS ∧ r.touchInfo = some t1 ∧
      t1.gesture = byteAt drv.rx 0 ∧ t1.numPoints = byteAt drv.rx 1 ∧
      t1.points = t.points :=
  ⟨_, _, retrieve_bad_count t hs hb hn, rfl, rfl, rfl, rfl, rfl⟩

/-- Witness for C6 (amended): `sixPointBuffer` decoded into `staleTarget`. -/
theorem retrieve_bad_count_keeps_points_witness :
    ∃ r t1, ft5x06_retrieveTouchInfo (okDriver sixPointBuffer) (some staleTarget) = some r ∧
      r.ret = FT5X06_RETTOUCH_ERR_NUM_POINTS ∧ r.touchInfo = some t1 ∧
      t1.gesture = 0x10 ∧ t1.numPoints = 6 ∧ t1.points = staleTarget.points := by
  obtain ⟨r, t1, h1, h2, h3, h4, h5, h6⟩ :=
    retrieve_bad_count_keeps_points (okDriver sixPointBuffer) staleTarget rfl rfl (by decide)
  exact ⟨r, t1, h1, h2, h3, by rw [h4]; decide, by rw [h5]; decide, h6⟩

/-- C7: after a successful decode with `numPoints = n`, every slot `i < n` holds
the coordinates extracted from its 6-byte record, and every slot `i` with
`n ≤ i ≤ 4` has its event taken from the buffer while its `x` and `y` are
exactly the values the target held before the call. -/
theorem retrieve_inactive_slots_keep_coordinates (drv : I2cDriver) (t : touchInfo)
    (hs : drv.status = i2c_error.I2C_ERR_noError) (hb : drv.rx.length = 30)
    (hp : t.points.length = 5) (hn : byteAt drv.rx 1 ≤ 5) :
    ∃ r t1, ft5x06_retrieveTouchInfo drv (some t) = some r ∧
      r.ret = FT5X06_RETTOUCH_OK ∧ r.touchInfo = some t1 ∧
      t1.numPoints = byteAt drv.rx 1 ∧
      (∀ i, i < t1.numPoints → ∃ p, t1.points[i]? = some p ∧
        p.x = ((byteAt drv.rx (2 + 6 * i) &&& 0x0f) <<< 8) ||| byteAt drv.rx (3 + 6 * i) ∧
        p.y = ((byteAt drv.rx (4 + 6 * i) &&& 0x0f) <<< 8) ||| byteAt drv.rx (5 + 6 * i)) ∧
      (∀ i, t1.numPoints ≤ i → i ≤ 4 → ∃ p q, t1.points[i]? = some p ∧ t.points[i]? = some q ∧
        p.event = (byteAt drv.rx (2 + 6 * i) >>> 6) &&& 0b11 ∧ p.x = q.x ∧ p.y = q.y) := by
  refine ⟨_, _, retrieve_ok hs hb hp hn, rfl, rfl, rfl, ?_, ?_⟩
  · intro i hi
    have hi' : i < byteAt drv.rx 1 := hi
    obtain ⟨q, _, hq⟩ := decodeReport_point drv.rx hp (show i < 5 by omega)
    refine ⟨_, hq, ?_, ?_⟩
    · simp [decodePoint, hi', Nat.mul_comm 6 i]
    · simp [decodePoint, hi', Nat.mul_comm 6 i]
  · intro i hi h4
    have hi' : ¬ (i < byteAt drv.rx 1) := Nat.not_lt.mpr hi
    obtain ⟨q, hq0, hq⟩ := decodeReport_point drv.rx hp (show i < 5 by omega)
    refine ⟨_, q, hq, hq0, ?_, ?_, ?_⟩
    · simp [decodePoint, hi', Nat.mul_comm 6 i]
    · simp [decodePoint, hi']
    · simp [decodePoint, hi']

/-- Witness for C7, the spec's case `n = 3`: decoding `threePointBuffer` into
`staleTarget` stores (1328, 64) in slot 2, and leaves slot 3 with its previous
coordinates (41, 42) and the event putUp read from the buffer. -/
theorem retrieve_inactive_slots_keep_coordinates_witness :
    ∃ r t1 p2 p3,
      ft5x06_retrieveTouchInfo (okDriver threePointBuffer) (some staleTarget) = some r ∧
      r.ret = FT5X06_RETTOUCH_OK ∧ r.touchInfo = some t1 ∧ t1.numPoints = 3 ∧
      t1.points[2]? = some p2 ∧ p2.x = 1328 ∧ p2.y = 64 ∧
      t1.points[3]? = some p3 ∧ p3.x = 41 ∧ p3.y = 42 ∧ p3.event = FT5X06_EVENT_putUp := by
  obtain ⟨r, t1, h1, h2, h3, h4, h5, h6⟩ :=
    retrieve_inactive_slots_keep_coordinates (okDriver threePointBuffer) staleTarget
      rfl rfl rfl (by decide)
  have hn3 : t1.numPoints = 3 := by rw [h4]; decide
  obtain ⟨p2, e2, x2, y2⟩ := h5 2 (by rw [hn3]; decide)
  obtain ⟨p3, q3, e3, f3, ev3, x3, y3⟩ := h6 3 (Nat.le_of_eq hn3) (by decide)
  have hq3 : q3 = ⟨41, 42, 2⟩ := by
    have : staleTarget.points[3]? = some ⟨41, 42, 2⟩ := by decide
    rw [this] at f3
    exact (Option.some.inj f3).symm
  refine ⟨r, t1, p2, p3, h1, h2, h3, hn3, e2, ?_, ?_, e3, ?_, ?_, ?_⟩
  · rw [x2]; decide
  · rw [y2]; decide
  · rw [x3, hq3]
  · rw [y3, hq3]
  · rw [ev3]; decide

/-- C8: called with a NULL target, `ft5x06_retrieveTouchInfo` returns
`FT5X06_RETTOUCH_NULL_ARG` and leaves the driver exactly as it was, so no
`i2c_getData` (and no other transport operation) is invoked, whatever status and
data the transport had ready. -/
theorem retrieve_null_argument (drv : I2cDriver) :
    ∃ r, ft5x06_retrieveTouchInfo drv none = some r ∧
      r.ret = FT5X06_RETTOUCH_NULL_ARG ∧ r.touchInfo = none ∧
      r.drv = drv ∧ r.drv.calls = drv.calls :=
  ⟨_, retrieve_null drv, rfl, rfl, rfl, rfl⟩

/-- C9: with a non-null target, when the transport fetch fails
`ft5x06_retrieveTouchInfo` returns `FT5X06_RETTOUCH_ERR_I2C_ERROR` whatever the
staging buffer holds (a count byte above 5 included), after exactly one
`i2c_getData( buffer, 30 )`, and the target is left completely unchanged. -/
theorem retrieve_transport_error (drv : I2cDriver) (t : touchInfo)
    (hs : drv.status ≠ i2c_error.I2C_ERR_noError) :
    ∃ r, ft5x06_retrieveTouchInfo drv (some t) = some r ∧
      r.ret = FT5X06_RETTOUCH_ERR_I2C_ERROR ∧ r.touchInfo = some t ∧
      r.drv.calls = drv.calls ++ [I2cCall.getData 30] :=
  ⟨_, retrieve_fetch_failed t hs, rfl, rfl, rfl⟩

/-- Witness for C9: a failing fetch over `sixPointBuffer`, whose count byte would
otherwise be rejected, reports the transport error and keeps `staleTarget`. -/
theorem retrieve_transport_error_witness :
    5 < byteAt (failingDriver sixPointBuffer).rx 1 ∧
    ∃ r, ft5x06_retrieveTouchInfo (failingDriver sixPointBuffer) (some staleTarget) = some r ∧
      r.ret = FT5X06_RETTOUCH_ERR_I2C_ERROR ∧ r.touchInfo = some staleTarget ∧
      r.drv.calls = [I2cCall.getData 30] :=
  ⟨by decide, retrieve_transport_error (failingDriver sixPointBuffer) staleTarget (by decide)⟩

/-- C10: for every byte value `g` and every successfully fetched 30-byte buffer
with byte 0 equal to `g` and byte 1 at most 5, `ft5x06_retrieveTouchInfo`
returns OK and the report's `gesture` is exactly `g`, whether or not `g` is one
of the enumerated gesture codes. -/
theorem retrieve_gesture_verbatim (g : Byte) (drv : I2cDriver) (t : touchInfo)
    (hs : drv.status = i2c_error.I2C_ERR_noError) (hb : drv.rx.length = 30)
    (hp : t.points.length = 5) (hn : byteAt drv.rx 1 ≤ 5) (hg : drv.rx[0]? = some g) :
    ∃ r t1, ft5x06_retrieveTouchInfo drv (some t) = some r ∧
      r.ret = FT5X06_RETTOUCH_OK ∧ r.touchInfo = some t1 ∧ t1.gesture = g.val :=
  ⟨_, _, retrieve_ok hs hb hp hn, rfl, rfl, byteAt_of_getElem? hg⟩

/-- Witness for C10: the gesture byte 0xab of `threePointBuffer` is none of the
enumerated codes and is reported as is. -/
theorem retrieve_gesture_verbatim_witness :
    ∃ r t1, ft5x06_retrieveTouchInfo (okDriver threePointBuffer) (some staleTarget) = some r ∧
      r.ret = FT5X06_RETTOUCH_OK ∧ r.touchInfo = some t1 ∧ t1.gesture = 0xab :=
  retrieve_gesture_verbatim 0xab (okDriver threePointBuffer) staleTarget rfl rfl rfl
    (by decide) rfl

/-! ## Bit packing of the wire table -/

theorem join_high_low (x : Nat) : ((x >>> 8) <<< 8) ||| (x &&& 0xff) = x := by
  have h1 : x &&& 0xff = x % 2 ^ 8 := Nat.and_pow_two_sub_one_eq_mod x 8
  have h2 : x % 2 ^ 8 < 2 ^ 8 := Nat.mod_lt _ (by decide)
  rw [h1, Nat.shiftLeft_eq, Nat.shiftRight_eq_div_pow, Nat.mul_comm,
    ← Nat.mul_add_lt_is_or h2, Nat.div_add_mod]

theorem packed_event (e h : Nat) (he : e ≤ 3) (hh : h ≤ 15) :
    (((e <<< 6) ||| h) >>> 6) &&& 0b11 = e := by
  interval_cases e <;> interval_cases h <;> rfl

theorem packed_nibble (e h : Nat) (he : e ≤ 3) (hh : h ≤ 15) :
    ((e <<< 6) ||| h) &&& 0x0f = h := by
  interval_cases e <;> interval_cases h <;> rfl

theorem high_nibble_le {x : Nat} (hx : x ≤ 4095) : x >>> 8 ≤ 15 := by
  rw [Nat.shiftRight_eq_div_pow]
  omega

theorem nibble_and (h : Nat) (hh : h ≤ 15) : h &&& 0x0f = h := by
  interval_cases h <;> rfl

/-! ## Claims, continued -/

/-- C11: wire-format round trip. Take a gesture byte `g`, a list `pts` of at most
five points with `x`, `y` in 0..4095 and event code in 0..3, and any successfully
fetched 30-byte buffer with byte 0 = `g`, byte 1 = number of points and, for each
point `i`, byte `2+6i = (e << 6) | (x >> 8)`, byte `3+6i = x & 0xff`,
byte `4+6i = y >> 8`, byte `5+6i = y & 0xff` (all other bytes arbitrary). Then
the decode returns OK with `gesture = g`, `numPoints` the number of points and
slot `i` equal to point `i` for every point of the list. -/
theorem retrieve_round_trip (g : Byte) (pts : List touchCoor) (drv : I2cDriver) (t : touchInfo)
    (hs : drv.status = i2c_error.I2C_ERR_noError) (hb : drv.rx.length = 30)
    (hp : t.points.length = 5) (hlen : pts.length ≤ 5)
    (hvalid : ∀ p ∈ pts, p.x ≤ 4095 ∧ p.y ≤ 4095 ∧ p.event ≤ 3)
    (h0 : byteAt drv.rx 0 = g.val) (h1 : byteAt drv.rx 1 = pts.length)
    (hrec : ∀ (i : Nat) (p : touchCoor), pts[i]? = some p →
      byteAt drv.rx (2 + 6 * i) = (p.event <<< 6) ||| (p.x >>> 8) ∧
      byteAt drv.rx (3 + 6 * i) = p.x &&& 0xff ∧
      byteAt drv.rx (4 + 6 * i) = p.y >>> 8 ∧
      byteAt drv.rx (5 + 6 * i) = p.y &&& 0xff) :
    ∃ r t1, ft5x06_retrieveTouchInfo drv (some t) = some r ∧
      r.ret = FT5X06_RETTOUCH_OK ∧ r.touchInfo = some t1 ∧
      t1.gesture = g.val ∧ t1.numPoints = pts.length ∧
      ∀ (i : Nat) (p : touchCoor), pts[i]? = some p → t1.points[i]? = some p := by
  have hn : byteAt drv.rx 1 ≤ 5 := by omega
  refine ⟨_, _, retrieve_ok hs hb hp hn, rfl, rfl, h0, h1, ?_⟩
  intro i p hip
  have hi : i < pts.length := by
    rcases Nat.lt_or_ge i pts.length with h | h
    · exact h
    · rw [List.getElem?_eq_none h] at hip; cases hip
  have hmem : p ∈ pts := List.getElem?_mem hip
  obtain ⟨hx, hy, he⟩ := hvalid p hmem
  obtain ⟨e2, e3, e4, e5⟩ := hrec i p hip
  rw [Nat.mul_comm 6 i] at e2 e3 e4 e5
  obtain ⟨q, _, hq⟩ := decodeReport_point drv.rx hp (show i < 5 by omega)
  rw [hq]
  have hact : i < byteAt drv.rx 1 := by omega
  simp only [decodePoint, hact, if_true, e2, e3, e4, e5]
  rw [packed_event _ _ he (high_nibble_le hx), packed_nibble _ _ he (high_nibble_le hx),
    nibble_and _ (high_nibble_le hy), join_high_low, join_high_low]

/-- Witness for C11, the end-to-end example: a query for 2 points requests 12
bytes from register 0x01 of device 0x38; `twoPointBuffer` (count 2, gesture 0,
put down at (100, 200), contact at (300, 400)) then decodes to exactly these two
points in slots 0 and 1. -/
theorem retrieve_round_trip_witness :
    ft5x06_queryTouchInfo 16 (okDriver twoPointBuffer) 2 =
        some (i2c_gets (okDriver twoPointBuffer) 0x38 0x01 12) ∧
    ∃ r t1,
      ft5x06_retrieveTouchInfo (i2c_gets (okDriver twoPointBuffer) 0x38 0x01 12)
        (some staleTarget) = some r ∧
      r.ret = FT5X06_RETTOUCH_OK ∧ r.touchInfo = some t1 ∧
      t1.gesture = 0 ∧ t1.numPoints = 2 ∧
      t1.points[0]? = some ⟨100, 200, FT5X06_EVENT_putDown⟩ ∧
      t1.points[1]? = some ⟨300, 400, FT5X06_EVENT_contact⟩ := by
  refine ⟨by decide, ?_⟩
  obtain ⟨r, t1, h1, h2, h3, h4, h5, h6⟩ :=
    retrieve_round_trip 0 twoPoints (i2c_gets (okDriver twoPointBuffer) 0x38 0x01 12)
      staleTarget rfl rfl rfl (by decide) (by decide) (by decide) (by decide)
      (by
        intro i p h
        match i, h with
        | 0, h => cases h; decide
        | 1, h => cases h; decide
        | k + 2, h => cases h)
  exact ⟨r, t1, h1, h2, h3, h4, h5, h6 0 _ rfl, h6 1 _ rfl⟩

theorem modifyPoint_eq_some {t t1 : touchInfo} {i : Nat} {f : touchCoor → touchCoor}
    (h : t.modifyPoint i f = some t1) :
    ∃ p, t.points[i]? = some p ∧ t1 = { t with points := t.points.set i (f p) } ∧
      t1.points[i]? = some (f p) := by
  unfold touchInfo.modifyPoint at h
  cases hp : t.points[i]? with
  | none => rw [hp] at h; cases h
  | some p =>
    rw [hp] at h
    have ht : t1 = { t with points := t.points.set i (f p) } := (Option.some.inj h).symm
    have hi : i < t.points.length := by
      rcases Nat.lt_or_ge i t.points.length with h | h
      · exact h
      · rw [List.getElem?_eq_none h] at hp; cases hp
    refine ⟨p, rfl, ht, ?_⟩
    rw [ht]
    simp [hi]

theorem loopBody_never_returns {buffer : List Byte} {i : Nat} {t : touchInfo} {s : LoopStep}
    (h : loopBody buffer i t = some s) : ∃ t1, s = LoopStep.next t1 := by
  unfold loopBody at h
  cases hb : buffer[2 + i * 6]? with
  | none => simp [hb] at h
  | some b =>
    cases hm : t.modifyPoint i (fun p => { p with event := (b.val >>> 6) &&& 0b11 }) with
    | none => simp [hb, hm] at h
    | some t1 =>
      obtain ⟨p, _, _, hp1⟩ := modifyPoint_eq_some hm
      have hev : ¬ ((b.val >>> 6) &&& 3 > 3) := by
        have := @Nat.and_le_right (b.val >>> 6) 3
        omega
      by_cases hn : i ≥ t1.numPoints
      · simp [hb, hm, hp1, hev, hn] at h
        exact ⟨t1, h.symm⟩
      · simp [hb, hm, hp1, hev, hn, Option.bind_eq_some] at h
        obtain ⟨_, _, _, _, _, _, _, _, _, _, _, _, ta, _, hs⟩ := h
        exact ⟨ta, hs.symm⟩

theorem forLoop_never_returns {buffer : List Byte} {n i : Nat} {t : touchInfo} {s : LoopStep}
    (h : forLoop buffer n i t = some s) : ∃ t1, s = LoopStep.next t1 := by
  induction n generalizing i t with
  | zero =>
    simp only [forLoop] at h
    exact ⟨t, (Option.some.inj h).symm⟩
  | succ n ih =>
    simp only [forLoop] at h
    cases hl : loopBody buffer i t with
    | none => rw [hl] at h; cases h
    | some s1 =>
      obtain ⟨t1, rfl⟩ := loopBody_never_returns hl
      rw [hl] at h
      exact ih h

theorem retrieve_ret_ne_event {drv : I2cDriver} {target : Option touchInfo} {r : RetrieveResult}
    (h : ft5x06_retrieveTouchInfo drv target = some r) : r.ret ≠ FT5X06_RETTOUCH_ERR_EVENT := by
  unfold ft5x06_retrieveTouchInfo at h
  cases target with
  | none =>
    simp only [Option.some.injEq] at h
    rw [← h]; simp [FT5X06_RETTOUCH_OK, FT5X06_RETTOUCH_ERR_I2C_ERROR,
              FT5X06_RETTOUCH_NULL_ARG, FT5X06_RETTOUCH_ERR_NUM_POINTS, FT5X06_RETTOUCH_ERR_EVENT]
  | some t =>
    simp only [i2c_getData] at h
    by_cases hs : drv.status = i2c_error.I2C_ERR_noError
    · cases h0 : drv.rx[0]? with
      | none => simp [hs, h0] at h
      | some b0 =>
        cases h1 : drv.rx[1]? with
        | none => simp [hs, h0, h1] at h
        | some b1 =>
          by_cases hn : 5 < b1.val
          · simp [hs, h0, h1, hn] at h
            rw [← h]; simp [FT5X06_RETTOUCH_OK, FT5X06_RETTOUCH_ERR_I2C_ERROR,
              FT5X06_RETTOUCH_NULL_ARG, FT5X06_RETTOUCH_ERR_NUM_POINTS, FT5X06_RETTOUCH_ERR_EVENT]
          · cases hl : forLoop drv.rx 5 0 { t with gesture := b0.val, numPoints := b1.val } with
            | none => simp [hs, h0, h1, hn, hl] at h
            | some s =>
              obtain ⟨t1, rfl⟩ := forLoop_never_returns hl
              simp [hs, h0, h1, hn, hl] at h
              rw [← h]; simp [FT5X06_RETTOUCH_OK, FT5X06_RETTOUCH_ERR_I2C_ERROR,
              FT5X06_RETTOUCH_NULL_ARG, FT5X06_RETTOUCH_ERR_NUM_POINTS, FT5X06_RETTOUCH_ERR_EVENT]
    · simp [hs] at h
      rw [← h]; simp [FT5X06_RETTOUCH_OK, FT5X06_RETTOUCH_ERR_I2C_ERROR,
              FT5X06_RETTOUCH_NULL_ARG, FT5X06_RETTOUCH_ERR_NUM_POINTS, FT5X06_RETTOUCH_ERR_EVENT]

/-- C12: when `ft5x06_retrieveTouchInfo` fails with
`FT5X06_RETTOUCH_ERR_NUM_POINTS` (buffer byte 1 greater than 5), no point slot
has been touched: `x`, `y` and `event` of each of the five slots are the values
the target held before the call. -/
theorem retrieve_bad_count_slots_unchanged (drv : I2cDriver) (t : touchInfo)
    (hs : drv.status = i2c_error.I2C_ERR_noError) (hb : drv.rx.length = 30)
    (hp : t.points.length = 5) (hn : 5 < byteAt drv.rx 1) :
    ∃ r t1, ft5x06_retrieveTouchInfo drv (some t) = some r ∧
      r.ret = FT5X06_RETTOUCH_ERR_NUM_POINTS ∧ r.touchInfo = some t1 ∧
      ∀ i, i < 5 → ∃ p q, t.points[i]? = some p ∧ t1.points[i]? = some q ∧
        q.x = p.x ∧ q.y = p.y ∧ q.event = p.event := by
  refine ⟨_, _, retrieve_bad_count t hs hb hn, rfl, rfl, ?_⟩
  intro i hi
  have hi5 : i < t.points.length := by omega
  exact ⟨t.points[i], t.points[i], List.getElem?_eq_getElem hi5,
    List.getElem?_eq_getElem hi5, rfl, rfl, rfl⟩

/-- Witness for C12: `sixPointBuffer` decoded into `staleTarget`; slot 3 still
holds (41, 42) with event contact. -/
theorem retrieve_bad_count_slots_unchanged_witness :
    ∃ r t1, ft5x06_retrieveTouchInfo (okDriver sixPointBuffer) (some staleTarget) = some r ∧
      r.ret = FT5X06_RETTOUCH_ERR_NUM_POINTS ∧ r.touchInfo = some t1 ∧
      t1.points[3]? = some ⟨41, 42, FT5X06_EVENT_contact⟩ := by
  obtain ⟨r, t1, h1, h2, h3, h4⟩ :=
    retrieve_bad_count_slots_unchanged (okDriver sixPointBuffer) staleTarget rfl rfl rfl
      (by decide)
  obtain ⟨p, q, hp, hq, hx, hy, he⟩ := h4 3 (by decide)
  have hp3 : p = ⟨41, 42, 2⟩ := by
    have : staleTarget.points[3]? = some ⟨41, 42, 2⟩ := by decide
    rw [this] at hp
    exact (Option.some.inj hp).symm
  refine ⟨r, t1, h1, h2, h3, ?_⟩
  rw [hq]
  cases q
  simp only [hp3] at hx hy he
  simp [hx, hy, he, FT5X06_EVENT_contact]

/-- C13: `ft5x06_retrieveTouchInfo` never returns `FT5X06_RETTOUCH_ERR_EVENT`.
For every target (NULL or with five slots), every transport status and every
30-byte buffer the call returns a value and that value is not
`FT5X06_RETTOUCH_ERR_EVENT`; more generally no result of the function, for any
input at all, carries that value. The event code `(byte >> 6) & 0b11` of any
byte is in 0..3, and the loop body never ends in its `return` statement. -/
theorem retrieve_never_invalid_event (drv : I2cDriver) (target : Option touchInfo)
    (hb : drv.rx.length = 30) (hp : ∀ t, target = some t → t.points.length = 5) :
    (∃ r, ft5x06_retrieveTouchInfo drv target = some r ∧
      r.ret ≠ FT5X06_RETTOUCH_ERR_EVENT) ∧
    (∀ (drv2 : I2cDriver) (target2 : Option touchInfo) (r : RetrieveResult),
      ft5x06_retrieveTouchInfo drv2 target2 = some r → r.ret ≠ FT5X06_RETTOUCH_ERR_EVENT) ∧
    (∀ k, (byteAt drv.rx k >>> 6) &&& 0b11 ≤ 3) ∧
    (∀ (i : Nat) (t : touchInfo) (s : LoopStep),
      loopBody drv.rx i t = some s → ∃ t1, s = LoopStep.next t1) := by
  refine ⟨?_, fun _ _ _ h => retrieve_ret_ne_event h, fun k => event_code_le _,
    fun _ _ _ h => loopBody_never_returns h⟩
  have hex : ∃ r, ft5x06_retrieveTouchInfo drv target = some r := by
    cases target with
    | none => exact ⟨_, retrieve_null drv⟩
    | some t =>
      by_cases hs : drv.status = i2c_error.I2C_ERR_noError
      · by_cases hn : byteAt drv.rx 1 ≤ 5
        · exact ⟨_, retrieve_ok hs hb (hp t rfl) hn⟩
        · exact ⟨_, retrieve_bad_count t hs hb (by omega)⟩
      · exact ⟨_, retrieve_fetch_failed t hs⟩
  obtain ⟨r, hr⟩ := hex
  exact ⟨r, hr, retrieve_ret_ne_event hr⟩

/-- Witness for C13: `threePointBuffer` has base byte `0b11000101` (event code 3)
in slot 1 and still decodes with a return value other than
`FT5X06_RETTOUCH_ERR_EVENT`. -/
theorem retrieve_never_invalid_event_witness :
    byteAt (okDriver threePointBuffer).rx 8 = 0b11000101 ∧
    ∃ r, ft5x06_retrieveTouchInfo (okDriver threePointBuffer) (some staleTarget) = some r ∧
      r.ret ≠ FT5X06_RETTOUCH_ERR_EVENT :=
  ⟨by decide,
   (retrieve_never_invalid_event (okDriver threePointBuffer) (some staleTarget) rfl
      (fun t h => by cases h; rfl)).1⟩

theorem decodePoint_event (buffer : List Byte) (n i : Nat) (p : touchCoor) :
    (decodePoint buffer n i p).event = (byteAt buffer (2 + i * 6) >>> 6) &&& 0b11 := by
  unfold decodePoint
  split <;> rfl

theorem decodeReport_congr {b1 b2 : List Byte} {t : touchInfo} (hp : t.points.length = 5)
    (h0 : byteAt b1 0 = byteAt b2 0) (h1 : byteAt b1 1 = byteAt b2 1)
    (hpts : ∀ i p, i < 5 →
      decodePoint b1 (byteAt b1 1) i p = decodePoint b2 (byteAt b1 1) i p) :
    decodeReport b1 t = decodeReport b2 t := by
  unfold decodeReport
  rw [← h0, ← h1]
  congr 1
  rw [List.mapIdx_eq_mapIdx_iff]
  intro i hi
  exact hpts i _ (by omega)

/-- Counterexample for C14 as stated: `twoPointBuffer` and `twoPointBufferTail`
both have count byte 2 and agree on their first 12 bytes, yet decoding them into
the same target gives reports that differ: slot 2 gets event put up from the
first and contact from the second (byte 14 is read). -/
theorem retrieve_reads_beyond_prefix :
    byteAt twoPointBuffer 1 = 2 ∧
    (∀ k, k < 2 + 6 * 2 - 2 → byteAt twoPointBuffer k = byteAt twoPointBufferTail k) ∧
    ∃ r r2 t1 t2 p q,
      ft5x06_retrieveTouchInfo (okDriver twoPointBuffer) (some staleTarget) = some r ∧
      ft5x06_retrieveTouchInfo (okDriver twoPointBufferTail) (some staleTarget) = some r2 ∧
      r.touchInfo = some t1 ∧ r2.touchInfo = some t2 ∧ t1 ≠ t2 ∧
      t1.points[2]? = some p ∧ t2.points[2]? = some q ∧
      p.event = FT5X06_EVENT_putUp ∧ q.event = FT5X06_EVENT_contact :=
  ⟨by decide, by decide,
   _, _, _, _, _, _, rfl, rfl, rfl, rfl, by decide, rfl, rfl, rfl, rfl⟩

/-- C14 (amended): for every pair of successfully fetched 30-byte buffers with
byte 1 = `n`, `1 ≤ n ≤ 5`, that agree on their first `2 + 6*n - 2` bytes and on
the top two bits of byte `2 + 6i` of every remaining slot `n ≤ i ≤ 4`, decoding
each into identical targets yields the same return value and identical
reports. -/
theorem retrieve_depends_on_prefix_and_events (drv drv2 : I2cDriver) (t : touchInfo)
    (hs : drv.status = i2c_error.I2C_ERR_noError) (hb : drv.rx.length = 30)
    (hs2 : drv2.status = i2c_error.I2C_ERR_noError) (hb2 : drv2.rx.length = 30)
    (hp : t.points.length = 5) (h1 : 1 ≤ byteAt drv.rx 1) (h5 : byteAt drv.rx 1 ≤ 5)
    (hpre : ∀ k, k < 2 + 6 * byteAt drv.rx 1 - 2 → byteAt drv.rx k = byteAt drv2.rx k)
    (hev : ∀ i, byteAt drv.rx 1 ≤ i → i ≤ 4 →
      (byteAt drv.rx (2 + 6 * i) >>> 6) &&& 0b11 = (byteAt drv2.rx (2 + 6 * i) >>> 6) &&& 0b11) :
    ∃ r r2, ft5x06_retrieveTouchInfo drv (some t) = some r ∧
      ft5x06_retrieveTouchInfo drv2 (some t) = some r2 ∧
      r.ret = r2.ret ∧ r.touchInfo = r2.touchInfo := by
  have e0 : byteAt drv.rx 0 = byteAt drv2.rx 0 := hpre 0 (by omega)
  have e1 : byteAt drv.rx 1 = byteAt drv2.rx 1 := hpre 1 (by omega)
  have h52 : byteAt drv2.rx 1 ≤ 5 := by omega
  refine ⟨_, _, retrieve_ok hs hb hp h5, retrieve_ok hs2 hb2 hp h52, rfl, ?_⟩
  show some (decodeReport drv.rx t) = some (decodeReport drv2.rx t)
  rw [decodeReport_congr hp e0 e1]
  intro i p hi
  unfold decodePoint
  by_cases hact : i < byteAt drv.rx 1
  · simp only [hact, if_true]
    rw [hpre (2 + i * 6) (by omega), hpre (3 + i * 6) (by omega),
      hpre (4 + i * 6) (by omega), hpre (5 + i * 6) (by omega)]
  · simp only [hact, if_false]
    have := hev i (by omega) (by omega)
    rw [Nat.mul_comm 6 i] at this
    rw [this]

/-- Witness for C14 (amended): `twoPointBuffer` and `twoPointBufferJunk` differ
in every byte from offset 12 on but keep the same event bits; decoding them into
`staleTarget` gives the same return value and the same report. -/
theorem retrieve_depends_on_prefix_and_events_witness :
    twoPointBuffer ≠ twoPointBufferJunk ∧
    ∃ r r2, ft5x06_retrieveTouchInfo (okDriver twoPointBuffer) (some staleTarget) = some r ∧
      ft5x06_retrieveTouchInfo (okDriver twoPointBufferJunk) (some staleTarget) = some r2 ∧
      r.ret = r2.ret ∧ r.touchInfo = r2.touchInfo :=
  ⟨by decide,
   retrieve_depends_on_prefix_and_events (okDriver twoPointBuffer) (okDriver twoPointBufferJunk)
     staleTarget rfl rfl rfl rfl rfl (by decide) (by decide) (by decide) (by decide)⟩

theorem activeSlots_decodeReport (buffer : List Byte) {t : touchInfo}
    (hp : t.points.length = 5) :
    activeSlots (decodeReport buffer t) = wireActiveSlots buffer := by
  obtain ⟨g, n, pts⟩ := t
  match pts, hp with
  | [p0, p1, p2, p3, p4], _ =>
    have hr : List.range 5 = [0, 1, 2, 3, 4] := by decide
    simp only [activeSlots, wireActiveSlots, decodeReport, hr, List.mapIdx_cons,
      List.mapIdx_nil, List.countP_cons, List.countP_nil, decodePoint_event]

/-- Counterexample for C15 as stated: `twoPointBufferZeroPad` (count byte 2, the
rest of the buffer zero) decodes successfully with `numPoints = 2`, while all
five slots carry an event other than put up. -/
theorem retrieve_count_not_active_slots :
    ∃ r t1,
      ft5x06_retrieveTouchInfo (okDriver twoPointBufferZeroPad) (some staleTarget) = some r ∧
      r.ret = FT5X06_RETTOUCH_OK ∧ r.touchInfo = some t1 ∧
      t1.numPoints = 2 ∧ activeSlots t1 = 5 ∧ t1.numPoints ≠ activeSlots t1 :=
  ⟨_, _, rfl, rfl, rfl, rfl, by decide, by decide⟩

/-- C15 (amended): in every successfully decoded report `numPoints` is the point
count the device reported in buffer byte 1 (at most 5). The decoder does not
compare it with the events: the number of slots whose decoded event differs from
put up is the number of slots `i` in 0..4 whose byte `2 + 6i` has top two bits
other than `01`, so `numPoints` equals the number of active slots exactly when
byte 1 equals that number. -/
theorem retrieve_count_is_reported_count (drv : I2cDriver) (t : touchInfo)
    (hs : drv.status = i2c_error.I2C_ERR_noError) (hb : drv.rx.length = 30)
    (hp : t.points.length = 5) (hn : byteAt drv.rx 1 ≤ 5) :
    ∃ r t1, ft5x06_retrieveTouchInfo drv (some t) = some r ∧
      r.ret = FT5X06_RETTOUCH_OK ∧ r.touchInfo = some t1 ∧
      t1.numPoints = byteAt drv.rx 1 ∧ t1.numPoints ≤ 5 ∧
      activeSlots t1 = wireActiveSlots drv.rx ∧
      (t1.numPoints = activeSlots t1 ↔ byteAt drv.rx 1 = wireActiveSlots drv.rx) := by
  refine ⟨_, _, retrieve_ok hs hb hp hn, rfl, rfl, rfl, hn, activeSlots_decodeReport _ hp, ?_⟩
  rw [activeSlots_decodeReport _ hp]
  exact Iff.rfl

/-- Witness for C15 (amended): in `twoPointBuffer` the three inactive slots
carry put up, so the reported count 2 is the number of active slots. -/
theorem retrieve_count_is_reported_count_witness :
    ∃ r t1, ft5x06_retrieveTouchInfo (okDriver twoPointBuffer) (some staleTarget) = some r ∧
      r.ret = FT5X06_RETTOUCH_OK ∧ r.touchInfo = some t1 ∧
      t1.numPoints = 2 ∧ activeSlots t1 = 2 := by
  obtain ⟨r, t1, h1, h2, h3, h4, _, h6, _⟩ :=
    retrieve_count_is_reported_count (okDriver twoPointBuffer) staleTarget rfl rfl rfl
      (by decide)
  exact ⟨r, t1, h1, h2, h3, by rw [h4]; decide, by rw [h6]; decide⟩

theorem modifyPoint_numPoints {t t1 : touchInfo} {i : Nat} {f : touchCoor → touchCoor}
    (h : t.modifyPoint i f = some t1) : t1.numPoints = t.numPoints := by
  obtain ⟨p, _, ht, _⟩ := modifyPoint_eq_some h
  rw [ht]

theorem loopBody_short {buffer : List Byte} {i : Nat} {t : touchInfo}
    (hlen : buffer.length ≤ 5 + i * 6) (hact : i < t.numPoints) :
    loopBody buffer i t = none := by
  have h5 : buffer[5 + i * 6]? = none := List.getElem?_eq_none hlen
  cases hl : loopBody buffer i t with
  | none => rfl
  | some s =>
    exfalso
    unfold loopBody at hl
    cases hb : buffer[2 + i * 6]? with
    | none => simp [hb] at hl
    | some b =>
      cases hm : t.modifyPoint i (fun p => { p with event := (b.val >>> 6) &&& 0b11 }) with
      | none => simp [hb, hm] at hl
      | some t1 =>
        obtain ⟨p, _, _, hp1⟩ := modifyPoint_eq_some hm
        have hnum := modifyPoint_numPoints hm
        have hev : ¬ ((b.val >>> 6) &&& 3 > 3) := by
          have := @Nat.and_le_right (b.val >>> 6) 3
          omega
        have hn : ¬ (i ≥ t1.numPoints) := by omega
        simp [hb, hm, hp1, hev, hn, Option.bind_eq_some, h5] at hl

theorem loopBody_in_bounds (buffer : List Byte) (i : Nat) (t : touchInfo)
    (hb : 5 + i * 6 < buffer.length) (hi : i < t.points.length) :
    ∃ t1, loopBody buffer i t = some (LoopStep.next t1) ∧
      t1.points.length = t.points.length :=
  ⟨_, loopBody_eq hb (List.getElem?_eq_getElem hi), by simp⟩

theorem forLoop_short {buffer : List Byte} {t : touchInfo}
    (hb : buffer.length = 29) (hp : t.points.length = 5) (hn : t.numPoints = 5) :
    forLoop buffer 5 0 t = none := by
  obtain ⟨g, n, pts⟩ := t
  have hn5 : n = 5 := hn
  match pts, hp with
  | [p0, p1, p2, p3, p4], _ =>
    simp only [forLoop]
    rw [loopBody_eq (p := p0) (by omega) (by simp)]
    simp only [List.set_cons_zero, Nat.zero_add]
    rw [loopBody_eq (p := p1) (by omega) (by simp)]
    simp only [List.set_cons_zero, List.set_cons_succ, Nat.reduceAdd]
    rw [loopBody_eq (p := p2) (by omega) (by simp)]
    simp only [List.set_cons_zero, List.set_cons_succ, Nat.reduceAdd]
    rw [loopBody_eq (p := p3) (by omega) (by simp)]
    simp only [List.set_cons_zero, List.set_cons_succ, Nat.reduceAdd]
    rw [loopBody_short (by omega) (by rw [hn5]; exact Nat.lt_succ_self 4)]

theorem retrieve_short {drv : I2cDriver} {t : touchInfo}
    (hs : drv.status = i2c_error.I2C_ERR_noError) (hb : drv.rx.length = 29)
    (hp : t.points.length = 5) (hn : byteAt drv.rx 1 = 5) :
    ft5x06_retrieveTouchInfo drv (some t) = none := by
  obtain ⟨b0, hb0, e0⟩ := exists_byte drv.rx (k := 0) (by omega)
  obtain ⟨b1, hb1, e1⟩ := exists_byte drv.rx (k := 1) (by omega)
  have hn1 : b1.val = 5 := by rw [← e1]; exact hn
  have hl := @forLoop_short drv.rx
    ( { t with gesture := b0.val, numPoints := b1.val }) hb hp hn1
  rw [hn1] at hl
  simp [ft5x06_retrieveTouchInfo, i2c_getData, hs, hb0, hb1, hn1, hl]

/-- C16: query/decode layout consistency. For every `n` in 1..5 the length
requested by `ft5x06_queryTouchInfo(n)`, `2 + 4n + 2(n-1)`, equals `2 + 6n - 2`
and is at most 30. On a buffer holding exactly that many bytes the reads of the
gesture and of the point count are in bounds, and for every active slot `i < n`
the loop body runs to its end without leaving the buffer (all the offsets it
reads, up to `5 + 6i`, are below the length). The last active record ends at
the last byte, offset `6n - 1`: with one byte less, decoding slot `n - 1`
leaves the buffer. -/
theorem query_length_covers_active_slots (w : Nat) (hw : 16 ≤ w) (drv : I2cDriver) (n : Nat)
    (h1 : 1 ≤ n) (h5 : n ≤ 5) :
    ∃ len : Int,
      ft5x06_queryTouchInfo w drv (n : Int) = some (i2c_gets drv FT5X06_I2C_ADDR 0x01 len) ∧
      len = 2 + 4 * (n : Int) + 2 * ((n : Int) - 1) ∧
      len = 2 + 6 * (n : Int) - 2 ∧ len ≤ 30 ∧
      ∀ (buffer : List Byte) (t : touchInfo),
        (buffer.length : Int) = len → t.points.length = 5 → t.numPoints = n →
        (∃ g c, buffer[0]? = some g ∧ buffer[1]? = some c) ∧
        (∀ i, i < n →
          5 + i * 6 < buffer.length ∧ ∃ t1, loopBody buffer i t = some (LoopStep.next t1)) ∧
        5 + (n - 1) * 6 = 6 * n - 1 ∧ 6 * n - 1 = buffer.length - 1 ∧
        loopBody (buffer.take (buffer.length - 1)) (n - 1) t = none := by
  have hP := int_pow_ge_of_width hw
  have hn : (n : Int) ≠ 0 := by omega
  have hq := queryLength_eq_some (w := w) hn (by omega) (by omega)
  refine ⟨2 + 4 * (n : Int) + 2 * ((n : Int) - 1), ?_, rfl, by ring, by omega, ?_⟩
  · simp [ft5x06_queryTouchInfo, hn, hq]
  · intro buffer t hlen hp hnum
    have hl : buffer.length = 6 * n := by omega
    refine ⟨?_, ?_, by omega, by omega, ?_⟩
    · exact ⟨buffer[0], buffer[1], List.getElem?_eq_getElem (by omega),
        List.getElem?_eq_getElem (by omega)⟩
    · intro i hi
      have hbi : 5 + i * 6 < buffer.length := by omega
      obtain ⟨t1, ht1, _⟩ := loopBody_in_bounds buffer i t hbi (by omega)
      exact ⟨hbi, t1, ht1⟩
    · apply loopBody_short
      · rw [List.length_take]; omega
      · omega

/-- Witness for C16: a query for 2 points requests 12 bytes, and on the first 12
bytes of `twoPointBuffer` the body for slot 1 runs to its end. -/
theorem query_length_covers_active_slots_witness :
    ft5x06_queryTouchInfo 16 (okDriver twoPointBuffer) 2 =
        some (i2c_gets (okDriver twoPointBuffer) 0x38 0x01 12) ∧
    ∃ t1, loopBody (twoPointBuffer.take 12) 1 { staleTarget with numPoints := 2 } =
      some (LoopStep.next t1) := by
  obtain ⟨len, h1, h2, _, _, h5⟩ :=
    query_length_covers_active_slots 16 (by decide) (okDriver twoPointBuffer) 2
      (by decide) (by decide)
  have hlen : len = 12 := by rw [h2]; decide
  subst hlen
  obtain ⟨_, h6, _⟩ := h5 (twoPointBuffer.take 12) { staleTarget with numPoints := 2 }
    (by decide) rfl rfl
  exact ⟨h1, (h6 1 (by decide)).2⟩

/-- C17: every array access of `ft5x06_retrieveTouchInfo` is within bounds. For
every driver whose staging buffer has 30 bytes and every target (NULL or with
five slots) the call returns a result, that is, no `Option`-returning access
takes its out-of-bounds branch. The offsets read are 0, 1 and, for `i` in 0..4,
up to `5 + 6i`, at most 29 and below the buffer length; in each of the five
iterations the body finds `points[ i ]` and leaves the array with five slots.
Offset 29 is really read: on the first 29 bytes only, a decode of five active
points does leave the buffer. -/
theorem retrieve_indices_in_bounds (drv : I2cDriver) (target : Option touchInfo)
    (hb : drv.rx.length = 30) (hp : ∀ t, target = some t → t.points.length = 5) :
    (∃ r, ft5x06_retrieveTouchInfo drv target = some r) ∧
    (∃ g c, drv.rx[0]? = some g ∧ drv.rx[1]? = some c) ∧
    (∀ i, i < 5 → 2 + i * 6 ≤ 5 + i * 6 ∧ 5 + i * 6 ≤ 29 ∧ 5 + i * 6 < drv.rx.length) ∧
    (∀ (i : Nat) (t : touchInfo), i < 5 → t.points.length = 5 →
      (∃ p, t.points[i]? = some p) ∧
      ∃ t1, loopBody drv.rx i t = some (LoopStep.next t1) ∧ t1.points.length = 5) ∧
    (∀ t : touchInfo, t.points.length = 5 → drv.status = i2c_error.I2C_ERR_noError →
      byteAt drv.rx 1 = 5 →
      ft5x06_retrieveTouchInfo { drv with rx := drv.rx.take 29 } (some t) = none) := by
  refine ⟨?_, ?_, ?_, ?_, ?_⟩
  · cases target with
    | none => exact ⟨_, retrieve_null drv⟩
    | some t =>
      by_cases hs : drv.status = i2c_error.I2C_ERR_noError
      · by_cases hn : byteAt drv.rx 1 ≤ 5
        · exact ⟨_, retrieve_ok hs hb (hp t rfl) hn⟩
        · exact ⟨_, retrieve_bad_count t hs hb (by omega)⟩
      · exact ⟨_, retrieve_fetch_failed t hs⟩
  · exact ⟨drv.rx[0], drv.rx[1], List.getElem?_eq_getElem (by omega),
      List.getElem?_eq_getElem (by omega)⟩
  · intro i hi
    omega
  · intro i t hi ht
    refine ⟨⟨t.points[i], List.getElem?_eq_getElem (by omega)⟩, ?_⟩
    obtain ⟨t1, h1, h2⟩ := loopBody_in_bounds drv.rx i t (by omega) (by omega)
    exact ⟨t1, h1, by omega⟩
  · intro t ht hs hn
    refine @retrieve_short { drv with rx := drv.rx.take 29 } t hs ?_ ht ?_
    · simp only [List.length_take]; omega
    · have h1 : (drv.rx.take 29)[1]? = drv.rx[1]? := List.getElem?_take_of_lt (by omega)
      unfold byteAt at hn ⊢
      simp only [h1]
      exact hn

/-- Witness for C17: decoding `threePointBuffer` into `staleTarget` yields a
result. -/
theorem retrieve_indices_in_bounds_witness :
    ∃ r, ft5x06_retrieveTouchInfo (okDriver threePointBuffer) (some staleTarget) = some r :=
  (retrieve_indices_in_bounds (okDriver threePointBuffer) (some staleTarget) rfl
    (fun t h => by cases h; rfl)).1

theorem decodePoint_idem (buffer : List Byte) (n i : Nat) (p : touchCoor) :
    decodePoint buffer n i (decodePoint buffer n i p) = decodePoint buffer n i p := by
  unfold decodePoint
  split <;> rfl

theorem decodeReport_idem (buffer : List Byte) (t : touchInfo) :
    decodeReport buffer (decodeReport buffer t) = decodeReport buffer t := by
  unfold decodeReport
  congr 1
  rw [List.mapIdx_mapIdx, List.mapIdx_eq_mapIdx_iff]
  intro i _
  exact decodePoint_idem buffer (byteAt buffer 1) i _

/-- C18: no stale data reaches the decoded part of a report. For every
successfully fetched 30-byte buffer with byte 1 = `n ≤ 5` and any two previous
target states, both decodes succeed and the two reports agree on `gesture`, on
`numPoints`, on the event of all five slots and on `x` and `y` of every slot
`i < n`; in the slots `i ≥ n` each report keeps the `x` and `y` its own target
held before. Decoding the same buffer once more into the decoded target gives
the same report again. -/
theorem retrieve_no_stale_data (drv : I2cDriver) (t t2 : touchInfo)
    (hs : drv.status = i2c_error.I2C_ERR_noError) (hb : drv.rx.length = 30)
    (hp : t.points.length = 5) (hp2 : t2.points.length = 5) (hn : byteAt drv.rx 1 ≤ 5) :
    ∃ r r2 a b, ft5x06_retrieveTouchInfo drv (some t) = some r ∧
      ft5x06_retrieveTouchInfo drv (some t2) = some r2 ∧
      r.ret = FT5X06_RETTOUCH_OK ∧ r2.ret = FT5X06_RETTOUCH_OK ∧
      r.touchInfo = some a ∧ r2.touchInfo = some b ∧
      a.gesture = b.gesture ∧ a.numPoints = b.numPoints ∧ a.numPoints = byteAt drv.rx 1 ∧
      (∀ i, i < 5 → ∃ p q p0 q0,
        a.points[i]? = some p ∧ b.points[i]? = some q ∧
        t.points[i]? = some p0 ∧ t2.points[i]? = some q0 ∧
        p.event = q.event ∧
        (i < a.numPoints → p.x = q.x ∧ p.y = q.y) ∧
        (a.numPoints ≤ i → p.x = p0.x ∧ p.y = p0.y ∧ q.x = q0.x ∧ q.y = q0.y)) ∧
      ∃ r3, ft5x06_retrieveTouchInfo r.drv (some a) = some r3 ∧
        r3.ret = FT5X06_RETTOUCH_OK ∧ r3.touchInfo = some a := by
  refine ⟨_, _, _, _, retrieve_ok hs hb hp hn, retrieve_ok hs hb hp2 hn, rfl, rfl, rfl, rfl,
    rfl, rfl, rfl, ?_, ?_⟩
  · intro i hi
    obtain ⟨p0, hp0, hpa⟩ := decodeReport_point drv.rx hp hi
    obtain ⟨q0, hq0, hqb⟩ := decodeReport_point drv.rx hp2 hi
    refine ⟨_, _, p0, q0, hpa, hqb, hp0, hq0, ?_, ?_, ?_⟩
    · rw [decodePoint_event, decodePoint_event]
    · intro hact
      have hact1 : i < byteAt drv.rx 1 := hact
      simp [decodePoint, hact1]
    · intro hina
      have hina1 : ¬ (i < byteAt drv.rx 1) := Nat.not_lt.mpr hina
      simp [decodePoint, hina1]
  · have hpd : (decodeReport drv.rx t).points.length = 5 := by
      simp [decodeReport, hp]
    have h := @retrieve_ok (afterFetch drv) (decodeReport drv.rx t) hs hb hpd hn
    refine ⟨_, h, rfl, ?_⟩
    show some (decodeReport drv.rx (decodeReport drv.rx t)) = some (decodeReport drv.rx t)
    rw [decodeReport_idem]

/-- Witness for C18: `twoPointBuffer` decoded into `staleTarget` and into a
zeroed target; the reports agree on gesture and on `numPoints = 2`, and the
inactive slot 3 has the same event in both while it keeps (41, 42) in the first
and (0, 0) in the second. -/
theorem retrieve_no_stale_data_witness :
    ∃ r r2 a b p q,
      ft5x06_retrieveTouchInfo (okDriver twoPointBuffer) (some staleTarget) = some r ∧
      ft5x06_retrieveTouchInfo (okDriver twoPointBuffer)
        (some ⟨0, 0, List.replicate 5 ⟨0, 0, 0⟩⟩) = some r2 ∧
      r.touchInfo = some a ∧ r2.touchInfo = some b ∧
      a.gesture = b.gesture ∧ a.numPoints = b.numPoints ∧ a.numPoints = 2 ∧
      a.points[3]? = some p ∧ b.points[3]? = some q ∧ p.event = q.event ∧
      p.x = 41 ∧ p.y = 42 ∧ q.x = 0 ∧ q.y = 0 := by
  obtain ⟨r, r2, a, b, h1, h2, _, _, h5, h6, h7, h8, h9, h10, _⟩ :=
    retrieve_no_stale_data (okDriver twoPointBuffer) staleTarget
      ⟨0, 0, List.replicate 5 ⟨0, 0, 0⟩⟩ rfl rfl rfl rfl (by decide)
  have hn2 : a.numPoints = 2 := by rw [h9]; decide
  obtain ⟨p, q, p0, q0, e1, e2, e3, e4, e5, _, e7⟩ := h10 3 (by decide)
  obtain ⟨x1, y1, x2, y2⟩ := e7 (by rw [hn2]; decide)
  have hp0 : p0 = ⟨41, 42, 2⟩ := by
    have : staleTarget.points[3]? = some ⟨41, 42, 2⟩ := by decide
    rw [this] at e3
    exact (Option.some.inj e3).symm
  have hq0 : q0 = ⟨0, 0, 0⟩ := by
    have : (List.replicate 5 (⟨0, 0, 0⟩ : touchCoor))[3]? = some ⟨0, 0, 0⟩ := by decide
    have e4b : (List.replicate 5 (⟨0, 0, 0⟩ : touchCoor))[3]? = some q0 := e4
    rw [this] at e4b
    exact (Option.some.inj e4b).symm
  refine ⟨r, r2, a, b, p, q, h1, h2, h5, h6, h7, h8, hn2, e1, e2, e5, ?_, ?_, ?_, ?_⟩
  · rw [x1, hp0]
  · rw [y1, hp0]
  · rw [x2, hq0]
  · rw [y2, hq0]

end FT5x06
